import Mathlib

/-!
Verification of the TripPlan calendar application (a React/TypeScript
trip-planning calendar) against its natural-language specification.

The development shallowly embeds the application's logic:

* Calendar dates are embedded as integer day numbers counted from the
  local epoch 1970-01-01 (day 0).  Every date the application manipulates
  is a local date at midnight, so the `date-fns` comparisons used by the
  source (`isBefore`, `isAfter`, `isSameDay`, `isWithinInterval` over
  `startOfDay`/`endOfDay` bounds) become `<`, `>`, `=` and interval
  membership on day numbers.
* `daysFromCivil` converts a civil (year, month, day) triple to its day
  number with the standard proleptic-Gregorian algorithm; `dayOfWeek`
  gives the JavaScript `Date.getDay()` weekday index (0 = Sunday;
  day 0, 1970-01-01, was a Thursday, index 4).
* Asynchronous remote calls are embedded by passing the outcome of the
  call (transport failure, unparsable body, application error, missing
  payload or a successful payload) as an explicit parameter; fallible
  computations return `Except`/`Option`.
* React state updates (`setTrips`, `setDraftRange`, ...) are embedded as
  explicit state-passing: each handler is a function from the prior
  state (plus the outcomes of its awaited calls) to the next state,
  together with the toast message it shows, if any.

Each definition mirrors the function of the same name in the source
(`src/components/Calendar.tsx`, `src/utils/api.ts` and the application
shell).
-/

/-! ## Civil-calendar arithmetic (embedding of the JS `Date` values) -/

/-- Day number of the day before the first of month `m` of year `y`
(proleptic Gregorian, epoch 1970-01-01 = day 0).  Standard
`days_from_civil` algorithm with the day-of-month contribution split off,
so that `daysFromCivil` is definitionally linear in the day. -/
def civilMonthBase (y : Int) (m : Nat) : Int :=
  let yAdj : Int := if m ≤ 2 then y - 1 else y
  let era : Int := yAdj.fdiv 400
  let yoe : Int := yAdj - era * 400
  let mp : Nat := if 2 < m then m - 3 else m + 9
  let doyBase : Int := ((153 * mp + 2) / 5 : Nat)
  era * 146097 + yoe * 365 + yoe / 4 - yoe / 100 + doyBase - 719468 - 1

/-- Day number of the local calendar date with components `y`-`m`-`d`. -/
def daysFromCivil (y : Int) (m : Nat) (d : Int) : Int := civilMonthBase y m + d

/-- `DateRange` from `src/types.ts`: the in-progress draft selection. -/
structure DateRange where
  startDate : Option Int
  endDate : Option Int
deriving DecidableEq, Repr

/-- `Trip` from `src/types.ts`, with dates as day numbers and the
optional `lastUpdated` change marker. -/
structure Trip where
  id : String
  startDate : Int
  endDate : Int
  lastUpdated : Option String
deriving DecidableEq, Repr

/-! ## Date-Range Selector (`Calendar.tsx`, `handleDateClick`) -/

/-- The draft-mutation logic of `handleDateClick` in `Calendar.tsx`
(lines 75-93): given the current draft and the clicked date, the next
draft.  The source's `isBefore`/`isSameDay` become `<`/`=` on day
numbers; when no guard matches (start absent but end present) no
`onDraftChange` call happens, so the draft is unchanged. -/
def handleDateClick (draft : DateRange) (date : Int) : DateRange :=
  match draft.startDate, draft.endDate with
  | none, none => ⟨some date, none⟩
  | some s, none =>
      if date < s then ⟨some date, none⟩
      else if date = s then ⟨none, none⟩
      else ⟨some s, some date⟩
  | some _, some _ => ⟨some date, none⟩
  | none, some _ => draft

/-- `handleResetDraft` from the application shell: the explicit reset
sets the draft to `{startDate: null, endDate: null}`. -/
def handleResetDraft : DateRange := ⟨none, none⟩

/-- The Draft Range invariant: if both dates are present then
start ≤ end, and the end date is never present without the start date. -/
def drInvariant (r : DateRange) : Prop :=
  match r.startDate, r.endDate with
  | some s, some e => s ≤ e
  | none, some _ => False
  | _, _ => True

/-- Draft states reachable from the initial empty draft by click
transitions and explicit resets. -/
inductive draftReachable : DateRange → Prop
  | init : draftReachable ⟨none, none⟩
  | click (r : DateRange) (d : Int) : draftReachable r →
      draftReachable (handleDateClick r d)
  | reset (r : DateRange) : draftReachable r → draftReachable handleResetDraft

/-! ## Calendar Grid Builder (`Calendar.tsx`, `calendarDays`) -/

/-- `isInDraft`: strictly between the draft's start and end, requiring
both to be present (`isAfter(date, start) && isBefore(date, end)`). -/
def isInDraft (draft : DateRange) (date : Int) : Bool :=
  match draft.startDate, draft.endDate with
  | some s, some e => decide (s < date) && decide (date < e)
  | _, _ => false

/-- `getTripForDate`: the first trip in list order whose inclusive date
interval (`startOfDay(startDate)` .. `endOfDay(endDate)`) contains the
date. -/
def getTripForDate (trips : List Trip) (date : Int) : Option Trip :=
  trips.find? (fun t => decide (t.startDate ≤ date) && decide (date ≤ t.endDate))

/-- The reconciled per-cell flags computed in the grid-rendering loop of
`Calendar.tsx` (lines 161-176). -/
structure DayFlags where
  isStart : Bool
  isEnd : Bool
  isRange : Bool
deriving DecidableEq, Repr

/-- The flag computation of the grid loop: draft flags, trip flags from
the first matching trip, then the reconciliation
`isStart = isDraftStart || (!draftRange.startDate && isTripStart)` (and
the analogous `isEnd`), `isRange = isDraftRange || (!isDraftRange &&
isTripRange)`. -/
def dayFlags (trips : List Trip) (draft : DateRange) (day : Int) : DayFlags :=
  let isDraftStart := match draft.startDate with
    | some s => decide (day = s)
    | none => false
  let isDraftEnd := match draft.endDate with
    | some e => decide (day = e)
    | none => false
  let isDraftRange := isInDraft draft day
  let existingTrip := getTripForDate trips day
  let isTripStart := match existingTrip with
    | some t => decide (day = t.startDate)
    | none => false
  let isTripEnd := match existingTrip with
    | some t => decide (day = t.endDate)
    | none => false
  let isTripRange := existingTrip.isSome && !isTripStart && !isTripEnd
  { isStart := isDraftStart || (draft.startDate.isNone && isTripStart)
    isEnd := isDraftEnd || (draft.endDate.isNone && isTripEnd)
    isRange := isDraftRange || (!isDraftRange && isTripRange) }

/-! ## Auto-navigation (`Calendar.tsx`, the month-jump effect) -/

/-- The body of the auto-navigation effect: if the draft has a start
date, jump to it; otherwise, with a non-empty trip list, jump to the
start date of the first trip in list order with `isAfter(t.startDate,
now)`, falling back to `trips[trips.length - 1]`; otherwise the
displayed month is left unchanged. -/
def autoNavTarget (draftStart : Option Int) (trips : List Trip)
    (now : Int) (current : Int) : Int :=
  match draftStart with
  | some d => d
  | none =>
    if 0 < trips.length then
      match trips.find? (fun t => decide (now < t.startDate)) with
      | some t => t.startDate
      | none =>
        match trips.getLast? with
        | some t => t.startDate
        | none => current
    else current

/-! ## Sync Loop (`fetchTrips` in the application shell) -/

/-- JS string coercion of the optional `lastUpdated` field inside
`t.id + t.lastUpdated` (an absent field concatenates as "undefined"). -/
def lastUpdatedStr : Option String → String
  | some s => s
  | none => "undefined"

/-- The Sync Fingerprint: `JSON.stringify(data.map(t => t.id +
t.lastUpdated))`.  `JSON.stringify` is injective on arrays of strings,
so the list of per-trip concatenations is a faithful embedding of the
hash string. -/
def tripHash (data : List Trip) : List String :=
  data.map (fun t => t.id ++ lastUpdatedStr t.lastUpdated)

/-- Outcome of one `getAllTripsFromCloud` call as seen by the shell:
the call's awaited resolution is determined by what the network/body
did.  The `ok` payload carries already-parsed trips. -/
inductive FetchOutcome where
  | transportFail
  | badBody
  | appError (msg : String)
  | noTripsField
  | ok (trips : List Trip)
deriving DecidableEq, Repr

/-- The value `getAllTripsFromCloud` resolves with: the parsed list on a
good payload and `[]` on every failure (its catch swallows transport
failures, unparsable bodies and application errors, and a body without a
`trips` array returns `[]` directly).  The promise never rejects. -/
def fetchedTrips : FetchOutcome → List Trip
  | .ok l => l
  | _ => []

/-- The shell state touched by `fetchTrips`: the trip list and the
last-applied fingerprint (`lastServerHash`, initially the empty string,
which is not the fingerprint of any list — embedded as `none`). -/
structure SyncState where
  trips : List Trip
  lastServerHash : Option (List String)
deriving DecidableEq, Repr

/-- `fetchTrips`: await the list, compute the fingerprint, and only if
it differs from the last applied one replace the trip list, store the
fingerprint and (when polling silently with a non-empty result) show the
sync toast.  Returns the next state and the toast shown, if any. -/
def fetchTrips (silent : Bool) (o : FetchOutcome) (s : SyncState) :
    SyncState × Option String :=
  let data := fetchedTrips o
  let currentHash := tripHash data
  if some currentHash ≠ s.lastServerHash then
    (⟨data, some currentHash⟩,
      if silent && 0 < data.length then some "已同步最新行程" else none)
  else (s, none)

/-! ## Save flow (`handleSave` in the application shell) -/

/-- Outcome of the awaited `saveTripToCloud` call: it either throws
(transport failure, unparsable body or application error) or resolves
with the server-assigned id. -/
inductive SaveOutcome where
  | err (msg : String)
  | ok (newId : String)
deriving DecidableEq, Repr

/-- The shell state touched by `handleSave`. -/
structure AppSaveState where
  trips : List Trip
  draftRange : DateRange
  isEditMode : Bool
deriving DecidableEq, Repr

/-- `handleSave`: guard on a complete draft; on a save error show it; on
a reported id re-fetch the full list and only if the id is present
replace the list, clear the draft and leave edit mode; otherwise raise
the consistency error, leaving the draft and the mode untouched. -/
def handleSave (st : AppSaveState) (saveOut : SaveOutcome)
    (fetchOut : FetchOutcome) : AppSaveState × Option String :=
  match st.draftRange.startDate, st.draftRange.endDate with
  | some _, some _ =>
    (match saveOut with
     | .err msg => (st, some msg)
     | .ok newId =>
        let latestTrips := fetchedTrips fetchOut
        if latestTrips.any (fun t => t.id == newId) then
          ({ trips := latestTrips, draftRange := ⟨none, none⟩,
             isEditMode := false }, some "行程已新增成功")
        else
          (st, some "儲存顯示成功但同步失敗，請確認 GAS 是否已『重新部署』(發布新版本)。"))
  | _, _ => (st, none)

/-! ## Remote Trip Store Client (`src/utils/api.ts`) -/

/-- JS `str.split(sep)` on character lists, keeping empty segments. -/
def splitAux (sep : Char → Bool) : List Char → List Char → List (List Char)
  | [], acc => [acc.reverse]
  | c :: rest, acc =>
    if sep c then acc.reverse :: splitAux sep rest []
    else splitAux sep rest (c :: acc)

/-- JS `String.prototype.split` with a character-class separator. -/
def jsSplit (sep : Char → Bool) (l : List Char) : List (List Char) :=
  splitAux sep l []

/-- Numeric value of a decimal digit character. -/
def digitVal (c : Char) : Nat := c.toNat - '0'.toNat

/-- Decimal value of a digit string. -/
def strToNat (l : List Char) : Nat :=
  l.foldl (fun n c => n * 10 + digitVal c) 0

/-- JS `Number(...)` restricted to the inputs `parseDateSafe` feeds it:
a non-empty all-digit string has its decimal value; anything else
(including the `undefined` of a missing split component, embedded as the
caller passing no string) is `NaN`, embedded as `none`. -/
def jsNumber (l : List Char) : Option Nat :=
  if l ≠ [] ∧ l.all Char.isDigit then some (strToNat l) else none

/-- JS `new Date(y, monthIndex, d)` at local midnight, as a day number:
a year argument between 0 and 99 inclusive is mapped to `1900 + y`
(ECMAScript's two-digit-year rule), month overflow is normalised with
floor semantics, and the day is an offset from the 1st.  (For
`monthIndex` in 0..11 and a year outside 0..99 this is exactly the
local date `y`-`(monthIndex+1)`-`d`.) -/
def jsNewDate (y mi d : Int) : Int :=
  let yFull := if 0 ≤ y ∧ y ≤ 99 then 1900 + y else y
  let tm := yFull * 12 + mi
  civilMonthBase (tm.fdiv 12) ((tm % 12).toNat + 1) + d

/-- `parseDateSafe` from `src/utils/api.ts`: empty input falls back to
`new Date()` (the current instant, whose day is `now`); otherwise take
the part before the first `'T'`, split it on `-`/`/`, convert the first
three components with `Number`, and build `new Date(year, month-1,
day)`.  A missing or non-numeric component makes the constructed date
invalid, embedded as `none`. -/
def parseDateSafe (now : Int) (dateStr : List Char) : Option Int :=
  if dateStr = [] then some now
  else
    let cleanStr := (jsSplit (fun c => c == 'T') dateStr).headD []
    let parts := jsSplit (fun c => c == '-' || c == '/') cleanStr
    match (parts.get? 0).bind jsNumber, (parts.get? 1).bind jsNumber,
        (parts.get? 2).bind jsNumber with
    | some y, some m, some d =>
        some (jsNewDate (y : Int) ((m : Int) - 1) (d : Int))
    | _, _, _ => none

/-- A trip entry as it appears in the remote JSON payload: dates are
still strings. -/
structure RawTrip where
  id : String
  startDate : List Char
  endDate : List Char
  lastUpdated : Option String
deriving DecidableEq, Repr

/-- A trip after `getAllTripsFromCloud`'s mapping: dates parsed by
`parseDateSafe` (possibly invalid). -/
structure TripParsed where
  id : String
  startDate : Option Int
  endDate : Option Int
  lastUpdated : Option String
deriving DecidableEq, Repr

/-- Outcome of the raw list fetch: what the network and the response
body did. -/
inductive RawFetchOutcome where
  | transportFail
  | badBody
  | appError (msg : String)
  | noTripsField
  | ok (trips : List RawTrip)
deriving DecidableEq, Repr

/-- The configured endpoint constant from `src/utils/api.ts`. -/
def API_URL : String :=
  "https://script.google.com/macros/s/AKfycbwRkKn8gI-7v3yNqn5Lb0DQWj0rFYr9hRluw5-fg49E3KncFuXg-dsU10R5ore8QiDSDg/exec"

/-- The per-entry mapping inside `getAllTripsFromCloud`. -/
def parseTripRaw (now : Int) (t : RawTrip) : TripParsed :=
  ⟨t.id, parseDateSafe now t.startDate, parseDateSafe now t.endDate,
    t.lastUpdated⟩

/-- The `try` block of `getAllTripsFromCloud`: a transport failure
throws `Failed to fetch`, an unparsable body throws the read error, an
explicit `{status:"error"}` reply throws its message, a body without a
`trips` array returns `[]`, and otherwise the entries are mapped. -/
def getAllTripsBody (now : Int) (o : RawFetchOutcome) :
    Except String (List TripParsed) :=
  match o with
  | .transportFail => .error "Failed to fetch"
  | .badBody => .error "無法讀取行程資料"
  | .appError msg => .error msg
  | .noTripsField => .ok []
  | .ok raw => .ok (raw.map (parseTripRaw now))

/-- `getAllTripsFromCloud`: reject only on an unconfigured URL;
otherwise run the body and silently turn every thrown error into the
empty list (the `catch` returns `[]`). -/
def getAllTripsFromCloud (apiUrl : String) (now : Int)
    (o : RawFetchOutcome) : Except String (List TripParsed) :=
  if apiUrl = "" then .error "請先設定 API URL"
  else
    match getAllTripsBody now o with
    | .error _ => .ok []
    | .ok l => .ok l

/-- Whether an `Except` result is a resolution (not a rejection). -/
def exceptResolved : Except String (List TripParsed) → Bool
  | .ok _ => true
  | .error _ => false

/-! ## Theorems -/

/-- C1: the Date-Range Selector's click transition satisfies the spec's
transition table: from `{absent, absent}` a click on D yields
`{start: D, end: absent}`; from `{start: S, end: absent}` it yields
`{start: D, end: absent}` when D is strictly before S, `{absent,
absent}` when D equals S, and `{start: S, end: D}` otherwise; from
`{start: S, end: E}` (both present) it yields `{start: D, end:
absent}`. -/
theorem C1_selector_transition (D S E : Int) :
    handleDateClick ⟨none, none⟩ D = ⟨some D, none⟩
    ∧ (D < S → handleDateClick ⟨some S, none⟩ D = ⟨some D, none⟩)
    ∧ (D = S → handleDateClick ⟨some S, none⟩ D = ⟨none, none⟩)
    ∧ (¬ D < S → D ≠ S → handleDateClick ⟨some S, none⟩ D = ⟨some S, some D⟩)
    ∧ handleDateClick ⟨some S, some E⟩ D = ⟨some D, none⟩ := by
  refine ⟨rfl, fun h => ?_, fun h => ?_, fun h1 h2 => ?_, rfl⟩
  · simp [handleDateClick, h]
  · subst h; simp [handleDateClick]
  · simp [handleDateClick, h1, h2]

/-- Witness for C1 at concrete inputs, discharging each hypothesis. -/
theorem C1_selector_transition_witness :
    handleDateClick ⟨some 7, none⟩ 3 = ⟨some 3, none⟩
    ∧ handleDateClick ⟨some 7, none⟩ 7 = ⟨none, none⟩
    ∧ handleDateClick ⟨some 7, none⟩ 9 = ⟨some 7, some 9⟩ :=
  ⟨(C1_selector_transition 3 7 0).2.1 (by decide),
   (C1_selector_transition 7 7 0).2.2.1 rfl,
   (C1_selector_transition 9 7 0).2.2.2.1 (by decide) (by decide)⟩

/-- C7: the Draft Range invariant — start ≤ end whenever both are
present, and never an end date without a start date — holds in the
initial empty state and in every state reachable by click transitions
and explicit resets. -/
theorem C7_draft_invariant : ∀ r, draftReachable r → drInvariant r := by
  intro r h
  induction h with
  | init => trivial
  | click r d _ _ =>
      rcases r with ⟨_ | s, _ | e⟩
      · trivial
      · trivial
      · simp only [handleDateClick, drInvariant]
        split_ifs with h1 h2
        · trivial
        · trivial
        · show s ≤ d
          omega
      · trivial
  | reset r _ => trivial

/-- Witness for C7 at a concrete reachable state. -/
theorem C7_draft_invariant_witness :
    drInvariant (handleDateClick ⟨none, none⟩ 3) :=
  C7_draft_invariant _ (draftReachable.click _ 3 draftReachable.init)

/-- C3 fails on the code: with draft `{start: 10, end: absent}` and the
single persisted trip spanning 9..11, day 10 is a draft boundary lying
strictly inside the trip, and the code reports the draft's boundary flag
but does NOT clear the trip's interior flag — `isRange` is `true`, while
the claim demands `isRange = false`. -/
theorem C3_reconciler_counterexample :
    (DateRange.mk (some 10) none).startDate = some 10
    ∧ (Trip.mk "T1" 9 11 none).startDate < 10
    ∧ (10 : Int) < (Trip.mk "T1" 9 11 none).endDate
    ∧ (dayFlags [Trip.mk "T1" 9 11 none] ⟨some 10, none⟩ 10).isStart = true
    ∧ ¬ (dayFlags [Trip.mk "T1" 9 11 none] ⟨some 10, none⟩ 10).isRange = false := by
  decide

/-- C3 amended: for every date D that is a draft boundary and lies
strictly inside some persisted trip's inclusive interval, the reconciled
flags report the draft's boundary flag (`isStart` or `isEnd` true), but
the trip's interior flag is NOT suppressed: whenever the trip matched
for D (the first in list order containing D) contains D strictly inside,
`isRange` is true.  Only the trip's boundary flags are suppressed by the
draft's boundary presence. -/
theorem C3_reconciler_amended (trips : List Trip) (draft : DateRange) (D : Int)
    (hb : draft.startDate = some D ∨ draft.endDate = some D)
    (ht : ∃ t ∈ trips, t.startDate < D ∧ D < t.endDate) :
    ((dayFlags trips draft D).isStart = true
      ∨ (dayFlags trips draft D).isEnd = true)
    ∧ (∀ t, getTripForDate trips D = some t → t.startDate < D →
        D < t.endDate → (dayFlags trips draft D).isRange = true) := by
  constructor
  · rcases hb with h | h
    · left
      simp [dayFlags, h]
    · right
      simp [dayFlags, h]
  · intro t hfind hlt1 hlt2
    have h1 : decide (D = t.startDate) = false := by
      simp only [decide_eq_false_iff_not]
      omega
    have h2 : decide (D = t.endDate) = false := by
      simp only [decide_eq_false_iff_not]
      omega
    cases h3 : isInDraft draft D <;> simp [dayFlags, hfind, h1, h2, h3]

/-- Witness for the amended C3 at the concrete configuration of the
counterexample. -/
theorem C3_reconciler_amended_witness :
    ((dayFlags [Trip.mk "T1" 9 11 none] ⟨some 10, none⟩ 10).isStart = true
      ∨ (dayFlags [Trip.mk "T1" 9 11 none] ⟨some 10, none⟩ 10).isEnd = true)
    ∧ (dayFlags [Trip.mk "T1" 9 11 none] ⟨some 10, none⟩ 10).isRange = true :=
  ⟨(C3_reconciler_amended [Trip.mk "T1" 9 11 none] ⟨some 10, none⟩ 10
      (Or.inl rfl)
      ⟨Trip.mk "T1" 9 11 none, by decide, by decide, by decide⟩).1,
   (C3_reconciler_amended [Trip.mk "T1" 9 11 none] ⟨some 10, none⟩ 10
      (Or.inl rfl)
      ⟨Trip.mk "T1" 9 11 none, by decide, by decide, by decide⟩).2
      (Trip.mk "T1" 9 11 none) (by decide) (by decide) (by decide)⟩

/-- C5: a background poll (silent mode) whose Sync Fingerprint — the
per-trip concatenation of id and last-modified marker, in list order —
equals the last-applied fingerprint leaves the trip list untouched and
shows no notification; a differing fingerprint replaces the list
wholesale and stores the new fingerprint. -/
theorem C5_sync_fingerprint (o : FetchOutcome) (s : SyncState) :
    (some (tripHash (fetchedTrips o)) = s.lastServerHash →
      fetchTrips true o s = (s, none))
    ∧ (some (tripHash (fetchedTrips o)) ≠ s.lastServerHash →
      (fetchTrips true o s).1.trips = fetchedTrips o
      ∧ (fetchTrips true o s).1.lastServerHash
          = some (tripHash (fetchedTrips o))) := by
  constructor
  · intro h
    simp [fetchTrips, h]
  · intro h
    simp [fetchTrips, h]

/-- Witness for C5: a matching fingerprint is a no-op, a differing
fingerprint replaces the list. -/
theorem C5_sync_fingerprint_witness :
    fetchTrips true (.ok [Trip.mk "T1" 5 9 (some "m1")])
        ⟨[Trip.mk "T1" 5 9 (some "m1")],
          some (tripHash [Trip.mk "T1" 5 9 (some "m1")])⟩
      = (⟨[Trip.mk "T1" 5 9 (some "m1")],
          some (tripHash [Trip.mk "T1" 5 9 (some "m1")])⟩, none)
    ∧ (fetchTrips true (.ok [Trip.mk "T1" 5 9 (some "m1")]) ⟨[], none⟩).1.trips
        = [Trip.mk "T1" 5 9 (some "m1")] :=
  ⟨(C5_sync_fingerprint (.ok [Trip.mk "T1" 5 9 (some "m1")])
      ⟨[Trip.mk "T1" 5 9 (some "m1")],
        some (tripHash [Trip.mk "T1" 5 9 (some "m1")])⟩).1 rfl,
   ((C5_sync_fingerprint (.ok [Trip.mk "T1" 5 9 (some "m1")])
      ⟨[], none⟩).2 (by simp)).1⟩

/-- C2 fails on the code: `getAllTripsFromCloud` resolves every failure
to the empty list, so a background poll that fails at transport level
while a non-empty list is cached computes the empty list's fingerprint,
sees it differ from the applied one, and replaces the cached trip list
with `[]` — the prior in-memory state is overwritten, not left
untouched.  (The `catch` branch of `fetchTrips` that would surface such
errors is unreachable, since the awaited call never rejects.) -/
theorem C2_failed_fetch_overwrites :
    (fetchTrips true .transportFail
        ⟨[Trip.mk "T1" 100 105 (some "m1")],
          some (tripHash [Trip.mk "T1" 100 105 (some "m1")])⟩).1.trips = []
    ∧ [Trip.mk "T1" 100 105 (some "m1")] ≠ ([] : List Trip) := by
  decide

/-- C6: when the save call reports a new id but the confirming full-list
fetch does not contain a trip with that id, `handleSave` raises the
consistency error and leaves the whole state — draft range, edit mode
and trip list — unchanged; and on every path, the draft is cleared only
when the save reported an id that the fetched list does contain (in
which case edit mode is also left). -/
theorem C6_save_consistency (st : AppSaveState) (newId : String)
    (fo : FetchOutcome)
    (hs : st.draftRange.startDate.isSome = true)
    (he : st.draftRange.endDate.isSome = true)
    (hmiss : (fetchedTrips fo).any (fun t => t.id == newId) = false) :
    ((handleSave st (.ok newId) fo).1 = st
      ∧ (handleSave st (.ok newId) fo).2
          = some "儲存顯示成功但同步失敗，請確認 GAS 是否已『重新部署』(發布新版本)。")
    ∧ ∀ (st' : AppSaveState) (so : SaveOutcome) (fo' : FetchOutcome),
        (handleSave st' so fo').1.draftRange ≠ st'.draftRange →
        ∃ id, so = .ok id
          ∧ (fetchedTrips fo').any (fun t => t.id == id) = true
          ∧ (handleSave st' so fo').1.draftRange = ⟨none, none⟩
          ∧ (handleSave st' so fo').1.isEditMode = false := by
  constructor
  · rcases hso : st.draftRange.startDate with _ | sv
    · rw [hso] at hs
      simp at hs
    · rcases heo : st.draftRange.endDate with _ | ev
      · rw [heo] at he
        simp at he
      · constructor
        · simp [handleSave, hso, heo, hmiss]
        · simp [handleSave, hso, heo, hmiss]
  · intro st' so fo' hne
    rcases hs' : st'.draftRange.startDate with _ | sv
    · exact absurd (by simp [handleSave, hs']) hne
    · rcases he' : st'.draftRange.endDate with _ | ev
      · exact absurd (by simp [handleSave, hs', he']) hne
      · cases so with
        | err msg => exact absurd (by simp [handleSave, hs', he']) hne
        | ok id =>
          by_cases hany : (fetchedTrips fo').any (fun t => t.id == id) = true
          · exact ⟨id, rfl, hany, by simp [handleSave, hs', he', hany],
              by simp [handleSave, hs', he', hany]⟩
          · exact absurd (by simp [handleSave, hs', he', hany]) hne

/-- Witness for C6: a save reporting id "T1" whose confirming fetch
returns a list without "T1" leaves the state unchanged. -/
theorem C6_save_consistency_witness :
    (handleSave ⟨[], ⟨some 5, some 9⟩, true⟩ (.ok "T1") (.ok [])).1
      = ⟨[], ⟨some 5, some 9⟩, true⟩ :=
  ((C6_save_consistency ⟨[], ⟨some 5, some 9⟩, true⟩ "T1" (.ok [])
      rfl rfl rfl).1).1

/-- C8 fails on the code: with two upcoming trips listed out of
chronological order, the auto-navigation effect jumps to the FIRST
upcoming trip in list order (start 100), not the nearest upcoming one
(start 50, the minimal upcoming start date). -/
theorem C8_autonav_counterexample :
    autoNavTarget none [Trip.mk "A" 100 101 none, Trip.mk "B" 50 51 none] 0 0
      = 100
    ∧ (0 : Int) < (Trip.mk "B" 50 51 none).startDate
    ∧ Trip.mk "B" 50 51 none
        ∈ [Trip.mk "A" 100 101 none, Trip.mk "B" 50 51 none]
    ∧ (([Trip.mk "A" 100 101 none, Trip.mk "B" 50 51 none].map
          (fun t => t.startDate)).filter (fun s => decide (0 < s))).min?
        = some 50
    ∧ autoNavTarget none [Trip.mk "A" 100 101 none, Trip.mk "B" 50 51 none] 0 0
      ≠ 50 := by
  decide

/-- On a list sorted by start date, `find?` for "starts after now"
returns an upcoming trip whose start date is minimal among upcoming
trips. -/
theorem find?_isMin_of_sorted (now : Int) :
    ∀ trips : List Trip,
    List.Pairwise (fun a b : Trip => a.startDate ≤ b.startDate) trips →
    ∀ t ∈ trips, now < t.startDate →
    ∃ u, trips.find? (fun x => decide (now < x.startDate)) = some u
      ∧ u ∈ trips ∧ now < u.startDate ∧ u.startDate ≤ t.startDate := by
  intro trips
  induction trips with
  | nil =>
    intro _ t ht
    simp at ht
  | cons x xs ih =>
    intro hp t ht hup
    rw [List.pairwise_cons] at hp
    by_cases hx : now < x.startDate
    · refine ⟨x, ?_, List.mem_cons_self x xs, hx, ?_⟩
      · rw [List.find?_cons_of_pos]
        exact decide_eq_true hx
      · rcases List.mem_cons.mp ht with rfl | hmem
        · exact le_refl _
        · exact hp.1 t hmem
    · have hmem : t ∈ xs := by
        rcases List.mem_cons.mp ht with rfl | hmem
        · exact absurd hup hx
        · exact hmem
      obtain ⟨u, hfind, humem, hunow, hule⟩ := ih hp.2 t hmem hup
      refine ⟨u, ?_, List.mem_cons_of_mem x humem, hunow, hule⟩
      rw [List.find?_cons_of_neg, hfind]
      exact fun hc => hx (of_decide_eq_true hc)

/-- C8 amended: when the draft's start date is set the displayed month
becomes that date's; when it is unset and the trip list is non-empty,
the displayed month becomes the start of the FIRST trip in list order
whose start date is after the current date — which is the nearest
upcoming trip whenever the list is sorted by start date — falling back
to the last trip in list order when no trip is upcoming. -/
theorem C8_autonav_amended (draftStart : Option Int) (trips : List Trip)
    (now cur : Int) :
    (∀ d, draftStart = some d → autoNavTarget draftStart trips now cur = d)
    ∧ (draftStart = none → trips ≠ [] →
        (∀ t ∈ trips, ¬ now < t.startDate) →
        ∃ tl, trips.getLast? = some tl
          ∧ autoNavTarget none trips now cur = tl.startDate)
    ∧ (draftStart = none →
        List.Pairwise (fun a b : Trip => a.startDate ≤ b.startDate) trips →
        ∀ t ∈ trips, now < t.startDate →
        ∃ u ∈ trips, now < u.startDate
          ∧ autoNavTarget none trips now cur = u.startDate
          ∧ u.startDate ≤ t.startDate) := by
  refine ⟨fun d h => by simp [autoNavTarget, h], ?_, ?_⟩
  · intro _ hne hnone
    have hfind : trips.find? (fun x => decide (now < x.startDate)) = none :=
      List.find?_eq_none.mpr (fun x hx => by simpa using hnone x hx)
    cases hl : trips.getLast? with
    | none =>
      exact absurd (List.getLast?_eq_none_iff.mp hl) hne
    | some tl =>
      refine ⟨tl, rfl, ?_⟩
      simp [autoNavTarget, hfind, hl, List.length_pos.mpr hne]
  · intro _ hp t ht hup
    obtain ⟨u, hfind, humem, hunow, hule⟩ :=
      find?_isMin_of_sorted now trips hp t ht hup
    refine ⟨u, humem, hunow, ?_, hule⟩
    simp [autoNavTarget, hfind, List.length_pos.mpr (List.ne_nil_of_mem ht)]

/-- Witness for the amended C8: the draft jump, the no-upcoming
fallback, and the sorted nearest-upcoming case, at concrete inputs. -/
theorem C8_autonav_amended_witness :
    autoNavTarget (some 7) [] 0 0 = 7
    ∧ (∃ tl, [Trip.mk "P" (-10) (-9) none].getLast? = some tl
        ∧ autoNavTarget none [Trip.mk "P" (-10) (-9) none] 0 0 = tl.startDate)
    ∧ (∃ u ∈ [Trip.mk "B" 50 51 none, Trip.mk "A" 100 101 none],
        (0 : Int) < u.startDate
        ∧ autoNavTarget none
            [Trip.mk "B" 50 51 none, Trip.mk "A" 100 101 none] 0 0
            = u.startDate
        ∧ u.startDate ≤ (Trip.mk "A" 100 101 none).startDate) :=
  ⟨(C8_autonav_amended (some 7) [] 0 0).1 7 rfl,
   (C8_autonav_amended none [Trip.mk "P" (-10) (-9) none] 0 0).2.1
      rfl (by decide) (by decide),
   (C8_autonav_amended none
      [Trip.mk "B" 50 51 none, Trip.mk "A" 100 101 none] 0 0).2.2
      rfl (by decide) (Trip.mk "A" 100 101 none) (by decide) (by decide)⟩

/-- Splitting walks over a separator-free prefix by accumulating it. -/
theorem splitAux_sepfree (sep : Char → Bool) :
    ∀ (a : List Char), (∀ c ∈ a, sep c = false) →
    ∀ (l acc : List Char),
    splitAux sep (a ++ l) acc = splitAux sep l (a.reverse ++ acc) := by
  intro a
  induction a with
  | nil =>
    intro _ l acc
    simp
  | cons c a' ih =>
    intro h l acc
    have hc : sep c = false := h c (List.mem_cons_self c a')
    simp only [List.cons_append, splitAux, hc, Bool.false_eq_true, if_false,
      List.append_eq]
    rw [ih (fun x hx => h x (List.mem_cons_of_mem c hx)) l (c :: acc)]
    simp

/-- JS `split` on a separator-free string returns the single segment. -/
theorem jsSplit_no_sep (sep : Char → Bool) (l : List Char)
    (h : ∀ c ∈ l, sep c = false) : jsSplit sep l = [l] := by
  have h1 := splitAux_sepfree sep l h [] []
  simpa [jsSplit, splitAux] using h1

/-- JS `split` peels off a separator-free prefix before a separator. -/
theorem jsSplit_append_sep (sep : Char → Bool) (a r : List Char)
    (ha : ∀ c ∈ a, sep c = false) (s : Char) (hs : sep s = true) :
    jsSplit sep (a ++ s :: r) = a :: jsSplit sep r := by
  have h1 := splitAux_sepfree sep a ha (s :: r) []
  rw [jsSplit, h1]
  simp [splitAux, hs, jsSplit]

/-- A decimal digit is none of the separator characters the date parser
splits on. -/
theorem digit_not_sep (c : Char) (h : c.isDigit = true) :
    (c == 'T') = false ∧ (c == '-' || c == '/') = false := by
  refine ⟨?_, ?_⟩
  · cases hb : c == 'T'
    · rfl
    · exfalso
      rw [beq_iff_eq] at hb
      subst hb
      exact absurd h (by decide)
  · cases hb1 : c == '-'
    · cases hb2 : c == '/'
      · simp [hb1, hb2]
      · exfalso
        rw [beq_iff_eq] at hb2
        subst hb2
        exact absurd h (by decide)
    · exfalso
      rw [beq_iff_eq] at hb1
      subst hb1
      exact absurd h (by decide)

/-- C9 fails on the code: for the claim-domain input `0025-06-05` the
parsed year component is 25, which the JS `Date(year, monthIndex, day)`
constructor maps to 1900 + 25 — the program constructs the local date
1925-06-05, not a local date with exactly the parsed components. -/
theorem C9_parse_counterexample :
    strToNat ['0', '0', '2', '5'] = 25
    ∧ parseDateSafe 0
        (['0', '0', '2', '5'] ++ '-' :: (['0', '6'] ++ '-' :: ['0', '5']))
      = some (daysFromCivil 1925 6 5)
    ∧ daysFromCivil 1925 6 5 ≠ daysFromCivil 25 6 5 := by
  decide

/-- C9 amended: for every date string `YYYY-MM-DD`, optionally followed
by a `'T'`-separated time component, `parseDateSafe` discards the time
component, splits the remainder into the year, month and day integers,
and constructs a local calendar date from them with no timezone-induced
day shift: the components are kept exactly whenever the year component
is at least 100, while a year component 0..99 is mapped to 1900 plus
that year by the JS `Date` constructor's two-digit-year rule. -/
theorem C9_parse (now : Int) (ys ms ds tail : List Char)
    (hys : ys ≠ []) (hysd : ys.all Char.isDigit = true)
    (hms : ms ≠ []) (hmsd : ms.all Char.isDigit = true)
    (hds : ds ≠ []) (hdsd : ds.all Char.isDigit = true)
    (hm1 : 1 ≤ strToNat ms) (hm2 : strToNat ms ≤ 12)
    (htail : tail = [] ∨ ∃ r, tail = 'T' :: r) :
    (100 ≤ strToNat ys →
      parseDateSafe now (ys ++ '-' :: (ms ++ '-' :: (ds ++ tail)))
        = some (daysFromCivil (strToNat ys) (strToNat ms) (strToNat ds)))
    ∧ (strToNat ys ≤ 99 →
      parseDateSafe now (ys ++ '-' :: (ms ++ '-' :: (ds ++ tail)))
        = some (daysFromCivil (1900 + (strToNat ys : Int)) (strToNat ms)
            (strToNat ds))) := by
  have hyfree : ∀ c ∈ ys, c.isDigit = true := fun c hc => by
    have := List.all_eq_true.mp hysd c hc
    simpa using this
  have hmfree : ∀ c ∈ ms, c.isDigit = true := fun c hc => by
    have := List.all_eq_true.mp hmsd c hc
    simpa using this
  have hdfree : ∀ c ∈ ds, c.isDigit = true := fun c hc => by
    have := List.all_eq_true.mp hdsd c hc
    simpa using this
  have hcoreT : ∀ c ∈ ys ++ '-' :: (ms ++ '-' :: ds), (c == 'T') = false := by
    intro c hc
    rcases List.mem_append.mp hc with hc1 | hc2
    · exact (digit_not_sep c (hyfree c hc1)).1
    · rcases List.mem_cons.mp hc2 with rfl | hc3
      · decide
      · rcases List.mem_append.mp hc3 with hc4 | hc5
        · exact (digit_not_sep c (hmfree c hc4)).1
        · rcases List.mem_cons.mp hc5 with rfl | hc6
          · decide
          · exact (digit_not_sep c (hdfree c hc6)).1
  have hne : ys ++ '-' :: (ms ++ '-' :: (ds ++ tail)) ≠ [] := by
    cases ys with
    | nil => exact absurd rfl hys
    | cons a b => simp
  have hassoc : ys ++ '-' :: (ms ++ '-' :: (ds ++ tail))
      = (ys ++ '-' :: (ms ++ '-' :: ds)) ++ tail := by
    simp
  have hclean : (jsSplit (fun c => c == 'T')
        (ys ++ '-' :: (ms ++ '-' :: (ds ++ tail)))).headD []
      = ys ++ '-' :: (ms ++ '-' :: ds) := by
    rw [hassoc]
    rcases htail with rfl | ⟨r, rfl⟩
    · rw [List.append_nil, jsSplit_no_sep _ _ hcoreT]
      rfl
    · rw [jsSplit_append_sep _ _ r hcoreT 'T' (by decide)]
      rfl
  have hparts : jsSplit (fun c => c == '-' || c == '/')
        (ys ++ '-' :: (ms ++ '-' :: ds)) = [ys, ms, ds] := by
    rw [jsSplit_append_sep _ ys (ms ++ '-' :: ds)
        (fun c hc => (digit_not_sep c (hyfree c hc)).2) '-' (by decide),
      jsSplit_append_sep _ ms ds
        (fun c hc => (digit_not_sep c (hmfree c hc)).2) '-' (by decide),
      jsSplit_no_sep _ ds (fun c hc => (digit_not_sep c (hdfree c hc)).2)]
  have hmain : parseDateSafe now (ys ++ '-' :: (ms ++ '-' :: (ds ++ tail)))
      = some (jsNewDate (strToNat ys) ((strToNat ms : Int) - 1)
          (strToNat ds)) := by
    rw [parseDateSafe, if_neg hne]
    simp only [hclean, hparts]
    simp only [List.get?_eq_getElem?, List.getElem?_cons_zero,
      List.getElem?_cons_succ, Option.some_bind]
    rw [jsNumber, if_pos ⟨hys, hysd⟩, jsNumber, if_pos ⟨hms, hmsd⟩,
      jsNumber, if_pos ⟨hds, hdsd⟩]
  constructor
  · intro h100
    rw [hmain]
    have hyr : ¬(0 ≤ (strToNat ys : Int) ∧ (strToNat ys : Int) ≤ 99) := by
      omega
    have hfd : ((strToNat ys : Int) * 12 + ((strToNat ms : Int) - 1)).fdiv 12
        = (strToNat ys : Int) := by
      rw [Int.fdiv_eq_ediv _ (by norm_num)]
      omega
    have hmd : (((strToNat ys : Int) * 12
          + ((strToNat ms : Int) - 1)) % 12).toNat + 1 = strToNat ms := by
      omega
    simp only [jsNewDate, if_neg hyr, hfd, hmd]
    rfl
  · intro h99
    rw [hmain]
    have hyr : 0 ≤ (strToNat ys : Int) ∧ (strToNat ys : Int) ≤ 99 := by
      omega
    have hfd : ((1900 + (strToNat ys : Int)) * 12
          + ((strToNat ms : Int) - 1)).fdiv 12
        = 1900 + (strToNat ys : Int) := by
      rw [Int.fdiv_eq_ediv _ (by norm_num)]
      omega
    have hmd : (((1900 + (strToNat ys : Int)) * 12
          + ((strToNat ms : Int) - 1)) % 12).toNat + 1 = strToNat ms := by
      omega
    simp only [jsNewDate, if_pos hyr, hfd, hmd]
    rfl

/-- Witness for the amended C9: parsing `2025-06-05T12` (time component
discarded, year at least 100) keeps the components exactly and yields
local day number 20244, while parsing `0025-06-05` (year component 25)
yields the 1900-shifted date. -/
theorem C9_parse_witness :
    parseDateSafe 0
        (['2', '0', '2', '5'] ++ '-' ::
          (['0', '6'] ++ '-' :: (['0', '5'] ++ ['T', '1', '2'])))
      = some (daysFromCivil (strToNat ['2', '0', '2', '5'])
          (strToNat ['0', '6']) (strToNat ['0', '5']))
    ∧ parseDateSafe 0
        (['0', '0', '2', '5'] ++ '-' ::
          (['0', '6'] ++ '-' :: (['0', '5'] ++ [])))
      = some (daysFromCivil (1900 + (strToNat ['0', '0', '2', '5'] : Int))
          (strToNat ['0', '6']) (strToNat ['0', '5']))
    ∧ daysFromCivil (strToNat ['2', '0', '2', '5'])
        (strToNat ['0', '6']) (strToNat ['0', '5']) = 20244 :=
  ⟨(C9_parse 0 ['2', '0', '2', '5'] ['0', '6'] ['0', '5'] ['T', '1', '2']
      (by decide) (by decide) (by decide) (by decide) (by decide) (by decide)
      (by decide) (by decide) (Or.inr ⟨['1', '2'], rfl⟩)).1 (by decide),
   (C9_parse 0 ['0', '0', '2', '5'] ['0', '6'] ['0', '5'] []
      (by decide) (by decide) (by decide) (by decide) (by decide) (by decide)
      (by decide) (by decide) (Or.inl rfl)).2 (by decide),
   by decide⟩

/-- C10 (implicit): with the API URL configured (non-empty),
`getAllTripsFromCloud` never rejects — every outcome resolves — and it
resolves with the empty list on a transport failure, an unparsable
body, an explicit error reply and a body lacking a trips array, and
with the parsed trip list on a good payload. -/
theorem C10_list_never_rejects (apiUrl : String) (now : Int)
    (o : RawFetchOutcome) (h : apiUrl ≠ "") :
    exceptResolved (getAllTripsFromCloud apiUrl now o) = true
    ∧ getAllTripsFromCloud apiUrl now .transportFail = .ok []
    ∧ getAllTripsFromCloud apiUrl now .badBody = .ok []
    ∧ (∀ msg, getAllTripsFromCloud apiUrl now (.appError msg) = .ok [])
    ∧ getAllTripsFromCloud apiUrl now .noTripsField = .ok []
    ∧ ∀ raw, getAllTripsFromCloud apiUrl now (.ok raw)
        = .ok (raw.map (parseTripRaw now)) := by
  refine ⟨?_, ?_, ?_, fun msg => ?_, ?_, fun raw => ?_⟩
  · cases o with
    | transportFail => simp [getAllTripsFromCloud, getAllTripsBody, h,
        exceptResolved]
    | badBody => simp [getAllTripsFromCloud, getAllTripsBody, h,
        exceptResolved]
    | appError msg => simp [getAllTripsFromCloud, getAllTripsBody, h,
        exceptResolved]
    | noTripsField => simp [getAllTripsFromCloud, getAllTripsBody, h,
        exceptResolved]
    | ok raw => simp [getAllTripsFromCloud, getAllTripsBody, h,
        exceptResolved]
  · simp [getAllTripsFromCloud, getAllTripsBody, h]
  · simp [getAllTripsFromCloud, getAllTripsBody, h]
  · simp [getAllTripsFromCloud, getAllTripsBody, h]
  · simp [getAllTripsFromCloud, getAllTripsBody, h]
  · simp [getAllTripsFromCloud, getAllTripsBody, h]

/-- Witness for C10 at the configured endpoint constant and a transport
failure. -/
theorem C10_list_never_rejects_witness :
    exceptResolved (getAllTripsFromCloud API_URL 0 .transportFail) = true
    ∧ getAllTripsFromCloud API_URL 0 .transportFail = .ok [] :=
  ⟨(C10_list_never_rejects API_URL 0 .transportFail (by decide)).1,
   (C10_list_never_rejects API_URL 0 .transportFail (by decide)).2.1⟩
